import Mathlib

/-!
Shallow embedding of the per-peer TCP transport of stellar-core
(src/overlay/TCPPeer.h, src/overlay/TCPPeer.cpp) and proofs about it.

The peer is single-threaded: every handler runs to completion on the main
thread, so each C++ member function is embedded as a pure function from the
peer state to the peer state.  Machine integers are embedded as Nat: the only
integer arithmetic in the code is the 4-byte length decode, whose value is
shown to stay below 2 to the 31st power, so the C int never overflows and
agrees with the Nat value.  Collaborators of the peer that are declared in
overlay/Peer.h but whose bodies are not part of this excerpt (shouldAbort,
isAuthenticated, isConnected, receivedBytes, sendErrorAndDrop, the overlay
manager and the XDR deserializer) are modelled from the specification and
say so in their doc comments.  Observable effects (metric marks, posted
tasks, bytes handed to asio) are recorded in dedicated fields of the state.
-/

namespace StellarOverlay

/-- Peer lifecycle states, as in the state machine CONNECTING, CONNECTED,
GOT_AUTH, CLOSING of the base peer. -/
inductive PeerState where
  | CONNECTING
  | CONNECTED
  | GOT_AUTH
  | CLOSING
  deriving DecidableEq

/-- Direction argument of TCPPeer::drop. -/
inductive DropDirection where
  | WE_DROPPED_REMOTE
  | REMOTE_DROPPED_US
  deriving DecidableEq

/-- Mode argument of TCPPeer::drop. -/
inductive DropMode where
  | IGNORE_WRITE_QUEUE
  | KEEP_WRITE_QUEUE
  deriving DecidableEq

/-- Error codes of the overlay protocol; only ERR_DATA is used by this file. -/
inductive ErrorCode where
  | ERR_MISC
  | ERR_DATA
  | ERR_CONF
  | ERR_AUTH
  | ERR_LOAD
  deriving DecidableEq

/-- MAX_UNAUTH_MESSAGE_SIZE of TCPPeer.h. -/
def MAX_UNAUTH_MESSAGE_SIZE : Nat := 0x1000

/-- MAX_MESSAGE_SIZE of TCPPeer.h. -/
def MAX_MESSAGE_SIZE : Nat := 0x1000000

/-- TCPPeer::TimestampedMessage: one outbound serialized message together
with its three latency timestamps.  The xdr message pointer is abstracted
to a Nat identifier. -/
structure TimestampedMessage where
  mEnqueuedTime : Nat
  mIssuedTime : Nat
  mCompletedTime : Nat
  mMessage : Nat
  deriving DecidableEq

/-- Asynchronous socket operations the write pipeline can have in flight:
an asio async_flush of the buffered stream, or an asio async_write of one
message. -/
inductive AsyncOp where
  | flush
  | write (m : Nat)
  deriving DecidableEq

/-- State of one TCPPeer, including the observable traces of its effects.
Fields named with the m prefix are the C++ data members; the remaining
fields record the environment the peer acts on: the overlay manager entry,
the idle timer, the posted-task queue, the metric counters, the socket
buffers, and the event logs used to state ordering properties. -/
structure TCPPeer where
  mState : PeerState := PeerState.CONNECTED
  mWriting : Bool := false
  mDelayedShutdown : Bool := false
  mShutdownScheduled : Bool := false
  mWriteQueue : List TimestampedMessage := []
  mIncomingHeader : List Nat := []
  mIncomingBody : List Nat := []
  /-- The idle timer is armed at construction and cancelled by shutdown. -/
  idleTimerActive : Bool := true
  /-- Whether the overlay manager still holds this peer in its registry. -/
  inOverlayManager : Bool := true
  /-- Names of tasks posted on the main thread via postOnMainThread. -/
  postQueue : List String := []
  /-- Current reading of the virtual clock. -/
  clockNow : Nat := 0
  mLastWrite : Nat := 0
  mLastEmpty : Nat := 0
  /-- Marks on the mErrorRead meter of the overlay metrics. -/
  mErrorRead : Nat := 0
  /-- Marks on the mErrorWrite meter of the overlay metrics. -/
  mErrorWrite : Nat := 0
  /-- Marks on the mMessageWrite meter of the overlay metrics. -/
  mMessageWrite : Nat := 0
  /-- Byte count accumulated by the mByteWrite meter. -/
  mByteWrite : Nat := 0
  /-- mPeerMetrics.mMessageWrite counter. -/
  pmMessageWrite : Nat := 0
  /-- mPeerMetrics.mByteWrite counter. -/
  pmByteWrite : Nat := 0
  /-- Marks on the mAsyncRead meter of the overlay metrics. -/
  mAsyncRead : Nat := 0
  /-- Updates recorded by the two write latency timers. -/
  timerUpdates : Nat := 0
  /-- Asynchronous socket operations currently in flight for the write
  pipeline, in the order they were issued. -/
  inFlightOps : List AsyncOp := []
  /-- Messages handed to asio async_write, in order: the wire order. -/
  issuedLog : List Nat := []
  /-- Messages accepted into the write queue by sendMessage, in order. -/
  enqueuedLog : List Nat := []
  /-- Error messages emitted through sendErrorAndDrop. -/
  sentErrorMsgs : List (ErrorCode × String) := []
  /-- Envelopes forwarded to the message handler of the base peer. -/
  dispatchedMsgs : List Nat := []
  /-- Bytes available in the receive buffer of the buffered stream. -/
  socketInAvail : List Nat := []
  /-- Number of synchronous header read_some calls performed. -/
  headerReads : Nat := 0
  /-- Number of synchronous body read_some calls performed. -/
  bodyReads : Nat := 0
  /-- Bytes reported to receivedBytes. -/
  bytesReceived : Nat := 0
  /-- Whether an asynchronous header read is registered with the reactor. -/
  asyncHeaderReadArmed : Bool := false
  /-- Whether an asynchronous body read is registered with the reactor. -/
  asyncBodyReadArmed : Bool := false
  deriving DecidableEq

namespace TCPPeer

/-- Modelled from the spec: Peer::shouldAbort of the base peer; a peer is
aborting exactly when it has made the terminal transition to CLOSING
(section 4.9 and the glossary entry for Drop; the cancellation paragraph of
section 5 identifies aborting with observing mState equal to CLOSING). -/
def shouldAbort (s : TCPPeer) : Bool :=
  decide (s.mState = PeerState.CLOSING)

/-- Modelled from the spec: Peer::isAuthenticated of the base peer; the
peer has completed the overlay handshake, which is the GOT_AUTH state of
the lifecycle state machine of section 4.8. -/
def isAuthenticated (s : TCPPeer) : Bool :=
  decide (s.mState = PeerState.GOT_AUTH)

/-- Modelled from the spec: Peer::isConnected of the base peer; the peer is
in a connected state, meaning past CONNECTING and not yet CLOSING. -/
def isConnected (s : TCPPeer) : Bool :=
  decide (s.mState = PeerState.CONNECTED ∨ s.mState = PeerState.GOT_AUTH)

/-- Modelled from the spec: OverlayManager::removePeer; the overlay manager
releases its reference to this peer (step 3 of drop in section 4.9). -/
def removePeer (s : TCPPeer) : TCPPeer :=
  { s with inOverlayManager := false }

/-- Embedding of TCPPeer::shutdown (TCPPeer.cpp lines 168 to 230).  When
mShutdownScheduled is already set the call only logs an internal bug and
returns.  Otherwise it cancels the idle timer, sets mShutdownScheduled and
posts the task named TCPPeer: shutdown, whose body performs the two-step
socket shutdown followed by a separately posted close. -/
def shutdown (s : TCPPeer) : TCPPeer :=
  if s.mShutdownScheduled then s
  else
    { s with idleTimerActive := false
           , mShutdownScheduled := true
           , postQueue := s.postQueue ++ ["TCPPeer: shutdown"] }

/-- Embedding of TCPPeer::drop (TCPPeer.cpp lines 544 to 584).  A no-op when
the peer is already aborting; otherwise transitions to CLOSING, removes the
peer from the overlay manager and either shuts down at once, when the mode
says to ignore the write queue or no write chain is armed, or defers the
shutdown to the write pump by setting mDelayedShutdown. -/
def drop (reason : String) (dropDirection : DropDirection) (dropMode : DropMode)
    (s : TCPPeer) : TCPPeer :=
  if shouldAbort s then s
  else
    let s1 := removePeer { s with mState := PeerState.CLOSING }
    if dropMode = DropMode.IGNORE_WRITE_QUEUE ∨ s1.mWriting = false then
      shutdown s1
    else
      { s1 with mDelayedShutdown := true }

/-- Helper for the error branch of writeHandler (TCPPeer.cpp lines 307 to
316): the mErrorWrite meter is marked only when the peer is still
connected. -/
def markErrorWriteIfConnected (s : TCPPeer) : TCPPeer :=
  if isConnected s then { s with mErrorWrite := s.mErrorWrite + 1 } else s

/-- Embedding of TCPPeer::writeHandler (TCPPeer.cpp lines 300 to 338).  The
error code of the completed operation is abstracted to the Bool
errorOccurred; mLastWrite is stamped unconditionally, an error runs the
delayed shutdown or drops the peer, and a successful transfer of a nonzero
byte count bumps the write meters. -/
def writeHandler (errorOccurred : Bool) (bytes_transferred : Nat)
    (s : TCPPeer) : TCPPeer :=
  let s1 := { s with mLastWrite := s.clockNow }
  if errorOccurred then
    let s2 := markErrorWriteIfConnected s1
    if s2.mDelayedShutdown then shutdown s2
    else
      drop "error during write" DropDirection.WE_DROPPED_REMOTE
        DropMode.IGNORE_WRITE_QUEUE s2
  else
    if bytes_transferred ≠ 0 then
      { s1 with mMessageWrite := s1.mMessageWrite + 1
              , mByteWrite := s1.mByteWrite + bytes_transferred
              , pmMessageWrite := s1.pmMessageWrite + 1
              , pmByteWrite := s1.pmByteWrite + bytes_transferred }
    else s1

/-- Embedding of TCPPeer::messageSender (TCPPeer.cpp lines 232 to 287) up to
its first suspension point.  With an empty queue it stamps mLastEmpty and
issues an asynchronous flush; otherwise it peeks the front record without
popping it, stamps its issue time and issues an asynchronous write of the
record.  The continuation of either operation is run later by
flushCompletion and writeCompletion below. -/
def messageSender (s : TCPPeer) : TCPPeer :=
  match s.mWriteQueue with
  | [] =>
      { s with mLastEmpty := s.clockNow
             , inFlightOps := s.inFlightOps ++ [AsyncOp.flush] }
  | t :: rest =>
      { s with mWriteQueue := { t with mIssuedTime := s.clockNow } :: rest
             , inFlightOps := s.inFlightOps ++ [AsyncOp.write t.mMessage]
             , issuedLog := s.issuedLog ++ [t.mMessage] }

/-- Embedding of TCPPeer::sendMessage (TCPPeer.cpp lines 135 to 166).  A
call in the CLOSING state only logs an internal bug and discards the
message; otherwise the message is wrapped in a TimestampedMessage stamped
with the current time, appended to the write queue, and if no write chain
is armed yet mWriting is set and the chain is kicked off. -/
def sendMessage (m : Nat) (s : TCPPeer) : TCPPeer :=
  if s.mState = PeerState.CLOSING then s
  else
    let tsm : TimestampedMessage :=
      { mEnqueuedTime := s.clockNow, mIssuedTime := 0, mCompletedTime := 0
      , mMessage := m }
    let s1 := { s with mWriteQueue := s.mWriteQueue ++ [tsm]
                     , enqueuedLog := s.enqueuedLog ++ [m] }
    if s1.mWriting = false then messageSender { s1 with mWriting := true }
    else s1

/-- Embedding of the async_flush continuation inside TCPPeer::messageSender
(TCPPeer.cpp lines 243 to 262): run writeHandler with a zero byte count;
on success re-enter the pump when messages arrived meanwhile, otherwise
disarm mWriting and perform a requested delayed shutdown. -/
def flushCompletion (errorOccurred : Bool) (s : TCPPeer) : TCPPeer :=
  let s1 := writeHandler errorOccurred 0 s
  if errorOccurred then s1
  else
    if s1.mWriteQueue ≠ [] then messageSender s1
    else
      let s2 := { s1 with mWriting := false }
      if s2.mDelayedShutdown then shutdown s2 else s2

/-- Embedding of the async_write continuation inside TCPPeer::messageSender
(TCPPeer.cpp lines 275 to 286): run writeHandler, stamp the completion time
of the front record and feed the two latency timers, pop the front record,
and on success re-enter the pump. -/
def writeCompletion (errorOccurred : Bool) (bytes_transferred : Nat)
    (s : TCPPeer) : TCPPeer :=
  let s1 := writeHandler errorOccurred bytes_transferred s
  let s2 :=
    match s1.mWriteQueue with
    | [] => { s1 with timerUpdates := s1.timerUpdates + 2 }
    | _ :: rest =>
        { s1 with mWriteQueue := rest, timerUpdates := s1.timerUpdates + 2 }
  if errorOccurred then s2 else messageSender s2

/-- One external event of the write pipeline: either the overlay manager
calls sendMessage, or the reactor fires the completion handler of the
oldest in-flight asynchronous operation with the given error flag and byte
count. -/
inductive WriteEvent where
  | send (m : Nat)
  | complete (errorOccurred : Bool) (bytes_transferred : Nat)
  deriving DecidableEq

/-- Step function of the write pipeline: dispatch one WriteEvent against
the peer state.  A completion with no operation in flight cannot be
delivered by the reactor and leaves the state unchanged. -/
def stepW (s : TCPPeer) (e : WriteEvent) : TCPPeer :=
  match e with
  | WriteEvent.send m => sendMessage m s
  | WriteEvent.complete err b =>
      match s.inFlightOps with
      | [] => s
      | op :: rest =>
          let s1 := { s with inFlightOps := rest }
          match op with
          | AsyncOp.flush => flushCompletion err s1
          | AsyncOp.write _ => writeCompletion err b s1

/-- Run of the write pipeline over a sequence of events. -/
def runW (es : List WriteEvent) (s : TCPPeer) : TCPPeer :=
  es.foldl stepW s

/-- A freshly connected peer with empty queues and all counters zero. -/
def initPeer : TCPPeer := {}

/-- Messages held in the write queue, front first. -/
def queueMsgs (s : TCPPeer) : List Nat :=
  s.mWriteQueue.map TimestampedMessage.mMessage

/-- An event is error-free when it is not a completion carrying an error. -/
def eventOk : WriteEvent → Bool
  | WriteEvent.send _ => true
  | WriteEvent.complete err _ => !err

/-- Embedding of the length decode of TCPPeer::getIncomingMsgLength
(TCPPeer.cpp lines 422 to 429): big-endian assembly of the four header
bytes with the XDR continuation bit of the first byte cleared.  Every
intermediate value stays below 2 to the 31st power (see the theorem for
claim C10), so the C int arithmetic never overflows and this Nat valued
function agrees with it exactly. -/
def decodeMsgLength (hdr : List Nat) : Nat :=
  ((((((hdr.getD 0 0 &&& 0x7f) <<< 8) ||| hdr.getD 1 0) <<< 8)
      ||| hdr.getD 2 0) <<< 8) ||| hdr.getD 3 0

/-- Embedding of TCPPeer::getIncomingMsgLength (TCPPeer.cpp lines 419 to
443).  The decoded length is validated: a zero length (the int can never be
negative), a length above MAX_UNAUTH_MESSAGE_SIZE on an unauthenticated
peer, or a length above MAX_MESSAGE_SIZE marks the mErrorRead meter, drops
the peer ignoring the write queue, and yields zero. -/
def getIncomingMsgLength (s : TCPPeer) : Nat × TCPPeer :=
  let length := decodeMsgLength s.mIncomingHeader
  if length ≤ 0 ∨
      (isAuthenticated s = false ∧ MAX_UNAUTH_MESSAGE_SIZE < length) ∨
      MAX_MESSAGE_SIZE < length then
    (0, drop "error during read" DropDirection.WE_DROPPED_REMOTE
          DropMode.IGNORE_WRITE_QUEUE { s with mErrorRead := s.mErrorRead + 1 })
  else
    (length, s)

/-- Modelled from the spec: Peer::receivedBytes of the base peer; reports
the byte count of a header, body or full message to the metrics (section
4.5). -/
def receivedBytes (byteCount : Nat) (gotFullMessage : Bool) (s : TCPPeer) :
    TCPPeer :=
  { s with bytesReceived := s.bytesReceived + byteCount }

/-- Modelled from the spec: Peer::sendErrorAndDrop of the base peer; sends
an error message with the given code and reason, then drops the peer with
the given mode (section 4.7). -/
def sendErrorAndDrop (code : ErrorCode) (reason : String) (mode : DropMode)
    (s : TCPPeer) : TCPPeer :=
  drop reason DropDirection.WE_DROPPED_REMOTE mode
    { s with sentErrorMsgs := s.sentErrorMsgs ++ [(code, reason)] }

/-- Embedding of TCPPeer::recvMessage (TCPPeer.cpp lines 524 to 542),
parameterized by the XDR deserializer, which is modelled from the spec as a
function returning the decoded envelope or nothing: a body that fails to
deserialize into the authenticated message envelope answers with ERR_DATA
and a drop; a body that deserializes is forwarded to Peer::recvMessage of
the base peer, modelled from the spec as appending to the dispatch log. -/
def recvMessage (deser : List Nat → Option Nat) (s : TCPPeer) : TCPPeer :=
  match deser s.mIncomingBody with
  | some am => { s with dispatchedMsgs := s.dispatchedMsgs ++ [am] }
  | none =>
      sendErrorAndDrop ErrorCode.ERR_DATA "received corrupt XDR"
        DropMode.IGNORE_WRITE_QUEUE s

/-- Byte count returned by the synchronous header read_some: the buffered
stream hands over at most the four requested bytes. -/
def headerBytesRead (s : TCPPeer) : Nat :=
  min 4 s.socketInAvail.length

/-- Effect of the synchronous header read_some (TCPPeer.cpp line 365): the
read bytes move from the stream buffer into mIncomingHeader. -/
def readHeaderBuf (s : TCPPeer) : TCPPeer :=
  { s with mIncomingHeader :=
             s.socketInAvail.take (headerBytesRead s)
               ++ s.mIncomingHeader.drop (headerBytesRead s)
         , socketInAvail := s.socketInAvail.drop (headerBytesRead s)
         , headerReads := s.headerReads + 1 }

/-- Byte count returned by the synchronous body read_some for a frame of
the given length. -/
def bodyBytesRead (length : Nat) (s : TCPPeer) : Nat :=
  min length s.socketInAvail.length

/-- Effect of the synchronous body read_some (TCPPeer.cpp line 380): the
mIncomingBody buffer is resized to the frame length and filled from the
stream buffer. -/
def readBodyBuf (length : Nat) (s : TCPPeer) : TCPPeer :=
  { s with mIncomingBody := s.socketInAvail.take length
         , socketInAvail := s.socketInAvail.drop length
         , bodyReads := s.bodyReads + 1 }

/-- Effect of issuing the asynchronous header read at the end of
TCPPeer::startRead (TCPPeer.cpp lines 407 to 416): mark the mAsyncRead
meter and register the read with the reactor. -/
def registerAsyncHeaderRead (s : TCPPeer) : TCPPeer :=
  { s with mAsyncRead := s.mAsyncRead + 1, asyncHeaderReadArmed := true }

/-- Embedding of TCPPeer::readHeaderHandler (TCPPeer.cpp lines 451 to 489)
up to its suspension point.  On success the received bytes are reported,
the header is re-validated, and a nonzero length resizes the body buffer
and registers the asynchronous body read.  On error the mErrorRead meter is
marked when still connected and the peer is dropped. -/
def readHeaderHandler (errorOccurred : Bool) (bytes_transferred : Nat)
    (s : TCPPeer) : TCPPeer :=
  if errorOccurred = false then
    let s1 := receivedBytes bytes_transferred false s
    let length := (getIncomingMsgLength s1).1
    let s2 := (getIncomingMsgLength s1).2
    if length ≠ 0 then
      { s2 with mIncomingBody := List.replicate length 0
              , asyncBodyReadArmed := true }
    else s2
  else
    let s1 :=
      if isConnected s then { s with mErrorRead := s.mErrorRead + 1 } else s
    drop "error during read" DropDirection.WE_DROPPED_REMOTE
      DropMode.IGNORE_WRITE_QUEUE s1

/-- Embedding of the synchronous drain loop of TCPPeer::startRead
(TCPPeer.cpp lines 362 to 416).  The fuel argument models the YieldTimer:
shouldKeepGoing answers true for the first fuel checks of the loop guard.
Each iteration reads a 4-byte header; a short read drops the peer, an
invalid length has already dropped the peer inside getIncomingMsgLength and
the loop moves on, a fully buffered body is read and dispatched
synchronously, and a partially buffered body is punted to
readHeaderHandler.  When the guard fails the asynchronous header read is
registered. -/
def startReadLoop (deser : List Nat → Option Nat) :
    Nat → TCPPeer → TCPPeer
  | 0, s => registerAsyncHeaderRead s
  | fuel + 1, s =>
      if 4 ≤ s.socketInAvail.length then
        let n := headerBytesRead s
        let s1 := readHeaderBuf s
        if n ≠ 4 then
          drop "error during header read_some" DropDirection.WE_DROPPED_REMOTE
            DropMode.IGNORE_WRITE_QUEUE s1
        else
          let length := (getIncomingMsgLength s1).1
          let s2 := (getIncomingMsgLength s1).2
          if length ≠ 0 then
            if length ≤ s2.socketInAvail.length then
              let nb := bodyBytesRead length s2
              let s3 := readBodyBuf length s2
              if nb ≠ length then
                drop "error during body read_some"
                  DropDirection.WE_DROPPED_REMOTE
                  DropMode.IGNORE_WRITE_QUEUE s3
              else
                startReadLoop deser fuel
                  (recvMessage deser (receivedBytes length true s3))
            else
              readHeaderHandler false 4 s2
          else
            startReadLoop deser fuel s2
      else
        registerAsyncHeaderRead s

/-- Embedding of TCPPeer::startRead (TCPPeer.cpp lines 340 to 417): return
at once when the peer is aborting, otherwise resize the header buffer to
four bytes and run the synchronous drain loop. -/
def startRead (deser : List Nat → Option Nat) (fuel : Nat) (s : TCPPeer) :
    TCPPeer :=
  if shouldAbort s then s
  else startReadLoop deser fuel { s with mIncomingHeader := List.replicate 4 0 }

section FrameLemmas

variable (s : TCPPeer)

@[simp] lemma shutdown_mState : (shutdown s).mState = s.mState := by
  unfold shutdown; split <;> rfl

@[simp] lemma shutdown_mWriting : (shutdown s).mWriting = s.mWriting := by
  unfold shutdown; split <;> rfl

@[simp] lemma shutdown_mDelayedShutdown :
    (shutdown s).mDelayedShutdown = s.mDelayedShutdown := by
  unfold shutdown; split <;> rfl

@[simp] lemma shutdown_mWriteQueue :
    (shutdown s).mWriteQueue = s.mWriteQueue := by
  unfold shutdown; split <;> rfl

@[simp] lemma shutdown_inFlightOps :
    (shutdown s).inFlightOps = s.inFlightOps := by
  unfold shutdown; split <;> rfl

@[simp] lemma shutdown_issuedLog : (shutdown s).issuedLog = s.issuedLog := by
  unfold shutdown; split <;> rfl

@[simp] lemma shutdown_enqueuedLog :
    (shutdown s).enqueuedLog = s.enqueuedLog := by
  unfold shutdown; split <;> rfl

@[simp] lemma shutdown_inOverlayManager :
    (shutdown s).inOverlayManager = s.inOverlayManager := by
  unfold shutdown; split <;> rfl

@[simp] lemma shutdown_mLastWrite : (shutdown s).mLastWrite = s.mLastWrite := by
  unfold shutdown; split <;> rfl

@[simp] lemma shutdown_bodyReads : (shutdown s).bodyReads = s.bodyReads := by
  unfold shutdown; split <;> rfl

@[simp] lemma shutdown_headerReads :
    (shutdown s).headerReads = s.headerReads := by
  unfold shutdown; split <;> rfl

@[simp] lemma markErrorWrite_mState :
    (markErrorWriteIfConnected s).mState = s.mState := by
  unfold markErrorWriteIfConnected; split <;> rfl

@[simp] lemma markErrorWrite_mWriting :
    (markErrorWriteIfConnected s).mWriting = s.mWriting := by
  unfold markErrorWriteIfConnected; split <;> rfl

@[simp] lemma markErrorWrite_mDelayedShutdown :
    (markErrorWriteIfConnected s).mDelayedShutdown = s.mDelayedShutdown := by
  unfold markErrorWriteIfConnected; split <;> rfl

@[simp] lemma markErrorWrite_mWriteQueue :
    (markErrorWriteIfConnected s).mWriteQueue = s.mWriteQueue := by
  unfold markErrorWriteIfConnected; split <;> rfl

@[simp] lemma markErrorWrite_inFlightOps :
    (markErrorWriteIfConnected s).inFlightOps = s.inFlightOps := by
  unfold markErrorWriteIfConnected; split <;> rfl

@[simp] lemma markErrorWrite_issuedLog :
    (markErrorWriteIfConnected s).issuedLog = s.issuedLog := by
  unfold markErrorWriteIfConnected; split <;> rfl

@[simp] lemma markErrorWrite_enqueuedLog :
    (markErrorWriteIfConnected s).enqueuedLog = s.enqueuedLog := by
  unfold markErrorWriteIfConnected; split <;> rfl

@[simp] lemma markErrorWrite_mLastWrite :
    (markErrorWriteIfConnected s).mLastWrite = s.mLastWrite := by
  unfold markErrorWriteIfConnected; split <;> rfl

@[simp] lemma markErrorWrite_mShutdownScheduled :
    (markErrorWriteIfConnected s).mShutdownScheduled = s.mShutdownScheduled := by
  unfold markErrorWriteIfConnected; split <;> rfl

@[simp] lemma markErrorWrite_clockNow :
    (markErrorWriteIfConnected s).clockNow = s.clockNow := by
  unfold markErrorWriteIfConnected; split <;> rfl

variable (reason : String) (dir : DropDirection) (mode : DropMode)

/-- Every branch of drop leaves the peer in the CLOSING state: either it
was already aborting, hence already CLOSING, or the transition is taken. -/
lemma drop_mState : (drop reason dir mode s).mState = PeerState.CLOSING := by
  simp only [drop]
  split
  · next h => simpa [shouldAbort] using h
  · split <;> simp [removePeer]

@[simp] lemma drop_mWriting : (drop reason dir mode s).mWriting = s.mWriting := by
  simp only [drop]
  split
  · rfl
  · split <;> simp [removePeer]

@[simp] lemma drop_mWriteQueue :
    (drop reason dir mode s).mWriteQueue = s.mWriteQueue := by
  simp only [drop]
  split
  · rfl
  · split <;> simp [removePeer]

@[simp] lemma drop_inFlightOps :
    (drop reason dir mode s).inFlightOps = s.inFlightOps := by
  simp only [drop]
  split
  · rfl
  · split <;> simp [removePeer]

@[simp] lemma drop_issuedLog :
    (drop reason dir mode s).issuedLog = s.issuedLog := by
  simp only [drop]
  split
  · rfl
  · split <;> simp [removePeer]

@[simp] lemma drop_enqueuedLog :
    (drop reason dir mode s).enqueuedLog = s.enqueuedLog := by
  simp only [drop]
  split
  · rfl
  · split <;> simp [removePeer]

@[simp] lemma drop_mLastWrite :
    (drop reason dir mode s).mLastWrite = s.mLastWrite := by
  simp only [drop]
  split
  · rfl
  · split <;> simp [removePeer]

@[simp] lemma drop_bodyReads :
    (drop reason dir mode s).bodyReads = s.bodyReads := by
  simp only [drop]
  split
  · rfl
  · split <;> simp [removePeer]

@[simp] lemma drop_headerReads :
    (drop reason dir mode s).headerReads = s.headerReads := by
  simp only [drop]
  split
  · rfl
  · split <;> simp [removePeer]

/-- Dropping with mode IGNORE_WRITE_QUEUE never defers the shutdown, so the
mDelayedShutdown flag is untouched. -/
lemma drop_ignore_mDelayedShutdown :
    (drop reason dir DropMode.IGNORE_WRITE_QUEUE s).mDelayedShutdown
      = s.mDelayedShutdown := by
  simp only [drop]
  split
  · rfl
  · rw [if_pos (Or.inl trivial)]
    simp [removePeer]

/-- The write handler touches neither the write queue, the in-flight
operations, the logs, the mWriting flag nor the mDelayedShutdown flag. -/
lemma writeHandler_frame (err : Bool) (b : Nat) :
    (writeHandler err b s).mWriteQueue = s.mWriteQueue ∧
    (writeHandler err b s).inFlightOps = s.inFlightOps ∧
    (writeHandler err b s).issuedLog = s.issuedLog ∧
    (writeHandler err b s).enqueuedLog = s.enqueuedLog ∧
    (writeHandler err b s).mWriting = s.mWriting ∧
    (writeHandler err b s).mDelayedShutdown = s.mDelayedShutdown := by
  simp only [writeHandler]
  split
  · split
    · simp
    · simp [drop_ignore_mDelayedShutdown]
  · split <;> simp

/-- On a write error with no delayed shutdown pending, the handler drops
the peer, which lands it in the CLOSING state. -/
lemma writeHandler_err_mState (b : Nat) (h : s.mDelayedShutdown = false) :
    (writeHandler true b s).mState = PeerState.CLOSING := by
  simp only [writeHandler]
  rw [if_pos trivial, if_neg (by simp [h])]
  exact drop_mState _ _ _ _

end FrameLemmas

/-- Left shift distributes over bitwise or on Nat. -/
lemma lor_shiftLeft_distrib (a b k : Nat) :
    (a ||| b) <<< k = (a <<< k) ||| (b <<< k) := by
  apply Nat.eq_of_testBit_eq
  intro i
  simp only [Nat.testBit_shiftLeft, Nat.testBit_lor]
  by_cases h : k ≤ i
  · simp [h, ge_iff_le]
  · simp [h, ge_iff_le]

/-- Shifting a bounded value eight bits left and merging one more byte
stays below the widened power of two. -/
lemma lor_byte_step_lt (a b n : Nat) (ha : a < 2 ^ n) (hb : b < 2 ^ 8) :
    (a <<< 8 ||| b) < 2 ^ (n + 8) := by
  apply Nat.bitwise_lt
  · exact Nat.shiftLeft_lt ha
  · exact lt_of_lt_of_le hb (Nat.pow_le_pow_right (by omega) (by omega))

/-- The guard of getIncomingMsgLength, written as the acceptance condition
of the specification: the function keeps the decoded length exactly when it
is positive, at most MAX_MESSAGE_SIZE, and at most MAX_UNAUTH_MESSAGE_SIZE
whenever the peer is not yet authenticated; otherwise it marks the
mErrorRead meter, drops the peer and yields zero. -/
lemma getIncomingMsgLength_eq_ite (s : TCPPeer) :
    getIncomingMsgLength s =
      if 0 < decodeMsgLength s.mIncomingHeader ∧
         decodeMsgLength s.mIncomingHeader ≤ MAX_MESSAGE_SIZE ∧
         (isAuthenticated s = false →
           decodeMsgLength s.mIncomingHeader ≤ MAX_UNAUTH_MESSAGE_SIZE) then
        (decodeMsgLength s.mIncomingHeader, s)
      else
        (0, drop "error during read" DropDirection.WE_DROPPED_REMOTE
              DropMode.IGNORE_WRITE_QUEUE
              { s with mErrorRead := s.mErrorRead + 1 }) := by
  have hg : (decodeMsgLength s.mIncomingHeader ≤ 0 ∨
      (isAuthenticated s = false ∧
        MAX_UNAUTH_MESSAGE_SIZE < decodeMsgLength s.mIncomingHeader) ∨
      MAX_MESSAGE_SIZE < decodeMsgLength s.mIncomingHeader) ↔
      ¬ (0 < decodeMsgLength s.mIncomingHeader ∧
         decodeMsgLength s.mIncomingHeader ≤ MAX_MESSAGE_SIZE ∧
         (isAuthenticated s = false →
           decodeMsgLength s.mIncomingHeader ≤ MAX_UNAUTH_MESSAGE_SIZE)) := by
    by_cases hb : isAuthenticated s = false <;> simp [hb] <;> omega
  by_cases hc : 0 < decodeMsgLength s.mIncomingHeader ∧
      decodeMsgLength s.mIncomingHeader ≤ MAX_MESSAGE_SIZE ∧
      (isAuthenticated s = false →
        decodeMsgLength s.mIncomingHeader ≤ MAX_UNAUTH_MESSAGE_SIZE)
  · rw [if_pos hc]
    simp only [getIncomingMsgLength]
    rw [if_neg (by rw [hg]; exact not_not_intro hc)]
  · rw [if_neg hc]
    simp only [getIncomingMsgLength]
    rw [if_pos (hg.mpr hc)]

/-- Claim C1: for every 4-byte header, the length decoded by
getIncomingMsgLength equals the big-endian 32-bit value of the header with
the high continuation bit of the first byte masked off. -/
theorem decode_len_bigEndian (h0 h1 h2 h3 : Nat)
    (hb0 : h0 < 256) (hb1 : h1 < 256) (hb2 : h2 < 256) (hb3 : h3 < 256) :
    decodeMsgLength [h0, h1, h2, h3] =
      (((h0 &&& 0x7f) <<< 24) ||| (h1 <<< 16) ||| (h2 <<< 8) ||| h3) := by
  show ((((((h0 &&& 0x7f) <<< 8) ||| h1) <<< 8) ||| h2) <<< 8) ||| h3 = _
  simp only [lor_shiftLeft_distrib, ← Nat.shiftLeft_add]

/-- Witness for claim C1 at the header 80 00 00 03 of the round-trip
scenario of the specification. -/
theorem decode_len_bigEndian_witness :
    decodeMsgLength [0x80, 0x00, 0x00, 0x03] =
      (((0x80 &&& 0x7f) <<< 24) ||| (0x00 <<< 16) ||| (0x00 <<< 8) ||| 0x03) :=
  decode_len_bigEndian 0x80 0x00 0x00 0x03 (by decide) (by decide) (by decide)
    (by decide)

/-- Claim C2: getIncomingMsgLength accepts the decoded length, returning it
nonzero, exactly when it is positive, at most MAX_MESSAGE_SIZE and, on an
unauthenticated peer, at most MAX_UNAUTH_MESSAGE_SIZE; on any violation it
marks the mErrorRead meter, drops the peer with mode IGNORE_WRITE_QUEUE and
returns zero. -/
theorem getIncomingMsgLength_validation (s : TCPPeer) :
    ((getIncomingMsgLength s).1 ≠ 0 ↔
      (0 < decodeMsgLength s.mIncomingHeader ∧
       decodeMsgLength s.mIncomingHeader ≤ MAX_MESSAGE_SIZE ∧
       (isAuthenticated s = false →
         decodeMsgLength s.mIncomingHeader ≤ MAX_UNAUTH_MESSAGE_SIZE))) ∧
    getIncomingMsgLength s =
      if 0 < decodeMsgLength s.mIncomingHeader ∧
         decodeMsgLength s.mIncomingHeader ≤ MAX_MESSAGE_SIZE ∧
         (isAuthenticated s = false →
           decodeMsgLength s.mIncomingHeader ≤ MAX_UNAUTH_MESSAGE_SIZE) then
        (decodeMsgLength s.mIncomingHeader, s)
      else
        (0, drop "error during read" DropDirection.WE_DROPPED_REMOTE
              DropMode.IGNORE_WRITE_QUEUE
              { s with mErrorRead := s.mErrorRead + 1 }) := by
  refine ⟨?_, getIncomingMsgLength_eq_ite s⟩
  rw [getIncomingMsgLength_eq_ite s]
  by_cases hc : 0 < decodeMsgLength s.mIncomingHeader ∧
      decodeMsgLength s.mIncomingHeader ≤ MAX_MESSAGE_SIZE ∧
      (isAuthenticated s = false →
        decodeMsgLength s.mIncomingHeader ≤ MAX_UNAUTH_MESSAGE_SIZE)
  · rw [if_pos hc]
    exact iff_of_true (Nat.pos_iff_ne_zero.mp hc.1) hc
  · rw [if_neg hc]
    exact iff_of_false (by simp) hc

/-- Witness for claim C2: a peer holding the valid header 80 00 00 03
accepts length 3, and an unauthenticated peer holding the header
00 00 20 00, which decodes to 8 KiB, marks the error meter, is dropped
ignoring the write queue, and gets length zero, as in the oversize scenario
of the specification. -/
theorem getIncomingMsgLength_validation_witness :
    (getIncomingMsgLength { initPeer with mIncomingHeader := [0x80, 0, 0, 3] }).1 ≠ 0 ∧
    getIncomingMsgLength { initPeer with mIncomingHeader := [0, 0, 0x20, 0] } =
      (0, drop "error during read" DropDirection.WE_DROPPED_REMOTE
            DropMode.IGNORE_WRITE_QUEUE
            { { initPeer with mIncomingHeader := [0, 0, 0x20, 0] } with
                mErrorRead := 1 }) := by
  constructor
  · exact (getIncomingMsgLength_validation
      { initPeer with mIncomingHeader := [0x80, 0, 0, 3] }).1.mpr (by decide)
  · have h := (getIncomingMsgLength_validation
      { initPeer with mIncomingHeader := [0, 0, 0x20, 0] }).2
    rw [h, if_neg (by decide)]
    rfl

/-- Claim C10: the masked big-endian decode of any 4-byte header is at most
0x7fffffff, so the C int holding it is never negative and the negative half
of the guard is unreachable; consequently getIncomingMsgLength always
returns either zero or a length that passed every size check. -/
theorem decode_len_nonneg :
    (∀ h0 h1 h2 h3 : Nat, h0 < 256 → h1 < 256 → h2 < 256 → h3 < 256 →
        decodeMsgLength [h0, h1, h2, h3] ≤ 0x7fffffff) ∧
    (∀ s : TCPPeer,
        (getIncomingMsgLength s).1 = 0 ∨
        (0 < (getIncomingMsgLength s).1 ∧
         (getIncomingMsgLength s).1 ≤ MAX_MESSAGE_SIZE ∧
         (isAuthenticated s = false →
           (getIncomingMsgLength s).1 ≤ MAX_UNAUTH_MESSAGE_SIZE))) := by
  constructor
  · intro h0 h1 h2 h3 hb0 hb1 hb2 hb3
    show ((((((h0 &&& 0x7f) <<< 8) ||| h1) <<< 8) ||| h2) <<< 8) ||| h3 ≤ _
    have ha : h0 &&& 0x7f < 2 ^ 7 := by
      have h := Nat.and_le_right (n := h0) (m := 0x7f)
      omega
    have s1 : ((h0 &&& 0x7f) <<< 8 ||| h1) < 2 ^ 15 :=
      lor_byte_step_lt _ _ 7 ha (by omega)
    have s2 : (((h0 &&& 0x7f) <<< 8 ||| h1) <<< 8 ||| h2) < 2 ^ 23 :=
      lor_byte_step_lt _ _ 15 s1 (by omega)
    have s3 : ((((h0 &&& 0x7f) <<< 8 ||| h1) <<< 8 ||| h2) <<< 8 ||| h3)
        < 2 ^ 31 :=
      lor_byte_step_lt _ _ 23 s2 (by omega)
    omega
  · intro s
    rw [getIncomingMsgLength_eq_ite s]
    by_cases hc : 0 < decodeMsgLength s.mIncomingHeader ∧
        decodeMsgLength s.mIncomingHeader ≤ MAX_MESSAGE_SIZE ∧
        (isAuthenticated s = false →
          decodeMsgLength s.mIncomingHeader ≤ MAX_UNAUTH_MESSAGE_SIZE)
    · rw [if_pos hc]
      exact Or.inr hc
    · rw [if_neg hc]
      exact Or.inl rfl

/-- Witness for claim C10 at the all-ones header, whose masked decode is
exactly 0x7fffffff, and at a peer holding that header, which is dropped
with length zero because 0x7fffffff exceeds MAX_MESSAGE_SIZE. -/
theorem decode_len_nonneg_witness :
    decodeMsgLength [255, 255, 255, 255] ≤ 0x7fffffff ∧
    ((getIncomingMsgLength { initPeer with
        mIncomingHeader := [255, 255, 255, 255] }).1 = 0 ∨
      (0 < (getIncomingMsgLength { initPeer with
          mIncomingHeader := [255, 255, 255, 255] }).1 ∧
       (getIncomingMsgLength { initPeer with
          mIncomingHeader := [255, 255, 255, 255] }).1 ≤ MAX_MESSAGE_SIZE ∧
       (isAuthenticated { initPeer with
          mIncomingHeader := [255, 255, 255, 255] } = false →
         (getIncomingMsgLength { initPeer with
            mIncomingHeader := [255, 255, 255, 255] }).1 ≤
           MAX_UNAUTH_MESSAGE_SIZE))) :=
  ⟨decode_len_nonneg.1 255 255 255 255 (by decide) (by decide) (by decide)
      (by decide),
   decode_len_nonneg.2 { initPeer with mIncomingHeader := [255, 255, 255, 255] }⟩

/-- Claim C4: calling sendMessage while the peer is CLOSING is a no-op
apart from the internal-bug log: the message is discarded and the whole
peer state, including the write queue, mWriting and mDelayedShutdown, is
unchanged. -/
theorem sendMessage_closing_noop (m : Nat) (s : TCPPeer)
    (h : s.mState = PeerState.CLOSING) : sendMessage m s = s := by
  simp [sendMessage, h]

/-- Witness for claim C4 at a concrete closing peer. -/
theorem sendMessage_closing_noop_witness :
    sendMessage 7 { initPeer with mState := PeerState.CLOSING } =
      { initPeer with mState := PeerState.CLOSING } :=
  sendMessage_closing_noop 7 { initPeer with mState := PeerState.CLOSING } rfl

/-- Claim C6: shutdown is idempotent through the mShutdownScheduled guard.
The first call cancels the idle timer, sets mShutdownScheduled and posts
the two-step socket shutdown and close sequence; any further call is a
no-op apart from an internal-bug log, so two invocations leave the peer and
socket state exactly as one does. -/
theorem shutdown_idempotent (s : TCPPeer) :
    (s.mShutdownScheduled = false →
      shutdown s =
        { s with idleTimerActive := false
               , mShutdownScheduled := true
               , postQueue := s.postQueue ++ ["TCPPeer: shutdown"] }) ∧
    shutdown (shutdown s) = shutdown s := by
  constructor
  · intro h
    simp [shutdown, h]
  · by_cases h : s.mShutdownScheduled <;> simp [shutdown, h]

/-- Witness for claim C6 at the initial peer, whose shutdown is not yet
scheduled. -/
theorem shutdown_idempotent_witness :
    shutdown initPeer =
      { initPeer with idleTimerActive := false
                    , mShutdownScheduled := true
                    , postQueue := ["TCPPeer: shutdown"] } ∧
    shutdown (shutdown initPeer) = shutdown initPeer := by
  refine ⟨?_, (shutdown_idempotent initPeer).2⟩
  have h := (shutdown_idempotent initPeer).1 rfl
  rw [h]
  rfl

/-- Claim C7: drop is a no-op on an already aborting peer; otherwise it
transitions the peer to CLOSING, removes it from the overlay manager, and
invokes shutdown immediately exactly when the mode is IGNORE_WRITE_QUEUE or
no write is in flight, setting mDelayedShutdown instead so that the write
pump shuts down once the queue drains. -/
theorem drop_behavior (reason : String) (dir : DropDirection)
    (mode : DropMode) (s : TCPPeer) :
    (shouldAbort s = true → drop reason dir mode s = s) ∧
    (shouldAbort s = false →
      (drop reason dir mode s).mState = PeerState.CLOSING ∧
      (drop reason dir mode s).inOverlayManager = false ∧
      ((mode = DropMode.IGNORE_WRITE_QUEUE ∨ s.mWriting = false) →
        drop reason dir mode s =
          shutdown (removePeer { s with mState := PeerState.CLOSING })) ∧
      ((mode = DropMode.KEEP_WRITE_QUEUE ∧ s.mWriting = true) →
        drop reason dir mode s =
          { removePeer { s with mState := PeerState.CLOSING } with
              mDelayedShutdown := true })) := by
  constructor
  · intro h
    simp [drop, h]
  · intro h
    refine ⟨drop_mState s reason dir mode, ?_, ?_, ?_⟩
    · simp only [drop, h]
      split
      · next hcontra => simp [h] at hcontra
      · split <;> simp [removePeer]
    · intro hm
      simp only [drop, h]
      split
      · next hcontra => simp [h] at hcontra
      · rw [if_pos (by simpa [removePeer] using hm)]
    · rintro ⟨hm, hw⟩
      simp only [drop, h]
      split
      · next hcontra => simp [h] at hcontra
      · rw [if_neg (by simp [removePeer, hm, hw])]

/-- Witness for claim C7: dropping an already closing peer changes nothing,
and dropping a peer with an armed write chain in mode KEEP_WRITE_QUEUE
defers the shutdown. -/
theorem drop_behavior_witness :
    drop "late" DropDirection.WE_DROPPED_REMOTE DropMode.KEEP_WRITE_QUEUE
        { initPeer with mState := PeerState.CLOSING } =
      { initPeer with mState := PeerState.CLOSING } ∧
    drop "busy" DropDirection.WE_DROPPED_REMOTE DropMode.KEEP_WRITE_QUEUE
        { initPeer with mWriting := true } =
      { removePeer { { initPeer with mWriting := true } with
          mState := PeerState.CLOSING } with mDelayedShutdown := true } :=
  ⟨(drop_behavior "late" DropDirection.WE_DROPPED_REMOTE
      DropMode.KEEP_WRITE_QUEUE
      { initPeer with mState := PeerState.CLOSING }).1 rfl,
   ((drop_behavior "busy" DropDirection.WE_DROPPED_REMOTE
      DropMode.KEEP_WRITE_QUEUE
      { initPeer with mWriting := true }).2 rfl).2.2.2 ⟨rfl, rfl⟩⟩

/-- Claim C8: writeHandler stamps mLastWrite with the current time
unconditionally; on an error it runs shutdown directly when
mDelayedShutdown is set and otherwise drops the peer with reason error
during write, direction WE_DROPPED_REMOTE and mode IGNORE_WRITE_QUEUE; on
success the write and byte counters are bumped exactly when the transferred
byte count is nonzero. -/
theorem writeHandler_behavior (err : Bool) (b : Nat) (s : TCPPeer) :
    (writeHandler err b s).mLastWrite = s.clockNow ∧
    (err = true → s.mDelayedShutdown = true →
      writeHandler err b s =
        shutdown (markErrorWriteIfConnected { s with mLastWrite := s.clockNow })) ∧
    (err = true → s.mDelayedShutdown = false →
      writeHandler err b s =
        drop "error during write" DropDirection.WE_DROPPED_REMOTE
          DropMode.IGNORE_WRITE_QUEUE
          (markErrorWriteIfConnected { s with mLastWrite := s.clockNow })) ∧
    (err = false → b ≠ 0 →
      writeHandler err b s =
        { s with mLastWrite := s.clockNow
               , mMessageWrite := s.mMessageWrite + 1
               , mByteWrite := s.mByteWrite + b
               , pmMessageWrite := s.pmMessageWrite + 1
               , pmByteWrite := s.pmByteWrite + b }) ∧
    (err = false → b = 0 →
      writeHandler err b s = { s with mLastWrite := s.clockNow }) := by
  refine ⟨?_, ?_, ?_, ?_, ?_⟩
  · simp only [writeHandler]
    split
    · split
      · simp
      · simp
    · split <;> simp
  · intro he hd
    subst he
    simp only [writeHandler]
    rw [if_pos trivial, if_pos (by simp [hd])]
  · intro he hd
    subst he
    simp only [writeHandler]
    rw [if_pos trivial, if_neg (by simp [hd])]
  · intro he hb
    subst he
    simp only [writeHandler]
    rw [if_neg (by simp), if_pos hb]
  · intro he hb
    subst he
    simp only [writeHandler]
    rw [if_neg (by simp), if_neg (by simp [hb])]

/-- Witness for claim C8: a successful five byte completion at the initial
peer bumps the counters, and an erroring completion with no delayed
shutdown pending drops the peer. -/
theorem writeHandler_behavior_witness :
    (writeHandler false 5 initPeer).mLastWrite = initPeer.clockNow ∧
    writeHandler false 5 initPeer =
      { initPeer with mLastWrite := initPeer.clockNow
                    , mMessageWrite := initPeer.mMessageWrite + 1
                    , mByteWrite := initPeer.mByteWrite + 5
                    , pmMessageWrite := initPeer.pmMessageWrite + 1
                    , pmByteWrite := initPeer.pmByteWrite + 5 } ∧
    writeHandler true 0 initPeer =
      drop "error during write" DropDirection.WE_DROPPED_REMOTE
        DropMode.IGNORE_WRITE_QUEUE
        (markErrorWriteIfConnected
          { initPeer with mLastWrite := initPeer.clockNow }) :=
  ⟨(writeHandler_behavior false 5 initPeer).1,
   (writeHandler_behavior false 5 initPeer).2.2.2.1 rfl (by decide),
   (writeHandler_behavior true 0 initPeer).2.2.1 rfl rfl⟩

/-- Claim C9: an inbound body that fails to deserialize into the
authenticated message envelope makes recvMessage send an ERR_DATA error
message and drop the peer with reason received corrupt XDR and mode
IGNORE_WRITE_QUEUE; a body that deserializes is forwarded to the message
handler of the base peer and nothing is dropped. -/
theorem recvMessage_dispatch (deser : List Nat → Option Nat) (s : TCPPeer) :
    (deser s.mIncomingBody = none →
      recvMessage deser s =
        drop "received corrupt XDR" DropDirection.WE_DROPPED_REMOTE
          DropMode.IGNORE_WRITE_QUEUE
          { s with sentErrorMsgs := s.sentErrorMsgs
              ++ [(ErrorCode.ERR_DATA, "received corrupt XDR")] }) ∧
    (∀ am, deser s.mIncomingBody = some am →
      recvMessage deser s = { s with dispatchedMsgs := s.dispatchedMsgs ++ [am] }) := by
  constructor
  · intro h
    simp [recvMessage, sendErrorAndDrop, h]
  · intro am h
    simp [recvMessage, h]

/-- Witness for claim C9 at a failing and at a succeeding deserializer over
the initial peer. -/
theorem recvMessage_dispatch_witness :
    recvMessage (fun _ => none) initPeer =
      drop "received corrupt XDR" DropDirection.WE_DROPPED_REMOTE
        DropMode.IGNORE_WRITE_QUEUE
        { initPeer with sentErrorMsgs := initPeer.sentErrorMsgs
            ++ [(ErrorCode.ERR_DATA, "received corrupt XDR")] } ∧
    recvMessage (fun _ => some 42) initPeer =
      { initPeer with dispatchedMsgs := initPeer.dispatchedMsgs ++ [42] } :=
  ⟨(recvMessage_dispatch (fun _ => none) initPeer).1 rfl,
   (recvMessage_dispatch (fun _ => some 42) initPeer).2 42 rfl⟩

/-- The length validation never touches the body read counter: both its
branches leave bodyReads unchanged. -/
lemma getIncomingMsgLength_bodyReads (s : TCPPeer) :
    (getIncomingMsgLength s).2.bodyReads = s.bodyReads := by
  simp only [getIncomingMsgLength]
  split
  · simp
  · rfl

/-- Counterexample to claim C3 as stated: the peer below holds eight
buffered bytes whose first four decode to length zero, so the first loop
iteration of startRead drops the peer; the claim says startRead then
returns immediately with no further header read and no asynchronous header
read registered, but the run performs a second header read and registers
the asynchronous header read. -/
theorem startRead_zero_len_cex :
    decodeMsgLength (List.take 4
        ({ initPeer with socketInAvail := [0, 0, 0, 0, 0, 0, 0, 0] } :
          TCPPeer).socketInAvail) = 0 ∧
    (startRead (fun _ => none) 3
        { initPeer with socketInAvail := [0, 0, 0, 0, 0, 0, 0, 0] }).headerReads
      = 2 ∧
    (startRead (fun _ => none) 3
        { initPeer with
            socketInAvail := [0, 0, 0, 0, 0, 0, 0, 0] }).asyncHeaderReadArmed
      = true ∧
    ¬ ((startRead (fun _ => none) 3
          { initPeer with
              socketInAvail := [0, 0, 0, 0, 0, 0, 0, 0] }).headerReads ≤ 1 ∧
        (startRead (fun _ => none) 3
          { initPeer with
              socketInAvail := [0, 0, 0, 0, 0, 0, 0, 0] }).asyncHeaderReadArmed
          = false) := by
  refine ⟨rfl, rfl, rfl, ?_⟩
  decide

/-- Claim C3 amended: when the decoded length is zero the drain loop of
startRead skips the body read of that frame but does not return: it
proceeds with the next loop iteration on the state left by the length
validation, and whenever fewer than four bytes remain buffered the loop
still registers the asynchronous header read, dropped peer or not. -/
theorem startRead_zero_len_continues (deser : List Nat → Option Nat)
    (fuel : Nat) (s : TCPPeer) (havail : 4 ≤ s.socketInAvail.length)
    (hzero : (getIncomingMsgLength (readHeaderBuf s)).1 = 0) :
    startReadLoop deser (fuel + 1) s =
      startReadLoop deser fuel (getIncomingMsgLength (readHeaderBuf s)).2 ∧
    (getIncomingMsgLength (readHeaderBuf s)).2.bodyReads = s.bodyReads ∧
    (∀ f : Nat, ∀ s2 : TCPPeer, s2.socketInAvail.length < 4 →
      startReadLoop deser f s2 = registerAsyncHeaderRead s2) := by
  refine ⟨?_, ?_, ?_⟩
  · simp only [startReadLoop]
    rw [if_pos havail,
      if_neg (by simp [headerBytesRead, Nat.min_eq_left havail]),
      if_neg (by simp [hzero])]
  · rw [getIncomingMsgLength_bodyReads]
    rfl
  · intro f s2 h
    cases f with
    | zero => rfl
    | succ f => simp only [startReadLoop]; rw [if_neg (by omega)]

/-- Witness for the amended claim C3 at a peer holding exactly one
zero-length header: the loop continues into its next iteration, the body
read counter is unchanged, and the exhausted buffer makes the next
iteration register the asynchronous header read. -/
theorem startRead_zero_len_continues_witness :
    startReadLoop (fun _ => none) (1 + 1)
        { initPeer with socketInAvail := [0, 0, 0, 0] } =
      startReadLoop (fun _ => none) 1
        (getIncomingMsgLength
          (readHeaderBuf { initPeer with socketInAvail := [0, 0, 0, 0] })).2 ∧
    (getIncomingMsgLength
        (readHeaderBuf { initPeer with socketInAvail := [0, 0, 0, 0] })).2.bodyReads
      = ({ initPeer with socketInAvail := [0, 0, 0, 0] } : TCPPeer).bodyReads ∧
    (∀ f : Nat, ∀ s2 : TCPPeer, s2.socketInAvail.length < 4 →
      startReadLoop (fun _ => none) f s2 = registerAsyncHeaderRead s2) :=
  startRead_zero_len_continues (fun _ => none) 1
    { initPeer with socketInAvail := [0, 0, 0, 0] } (by decide) (by decide)

section WritePipeline

/-- Behaviour of the write pump on an empty queue: stamp mLastEmpty and
issue the asynchronous flush. -/
lemma messageSender_nil (s : TCPPeer) (h : s.mWriteQueue = []) :
    messageSender s =
      { s with mLastEmpty := s.clockNow
             , inFlightOps := s.inFlightOps ++ [AsyncOp.flush] } := by
  unfold messageSender
  rw [h]

/-- Behaviour of the write pump on a nonempty queue: stamp the issue time
of the front record, leave it in the queue, and issue the asynchronous
write of its message. -/
lemma messageSender_cons (s : TCPPeer) (t : TimestampedMessage)
    (rest : List TimestampedMessage) (h : s.mWriteQueue = t :: rest) :
    messageSender s =
      { s with mWriteQueue := { t with mIssuedTime := s.clockNow } :: rest
             , inFlightOps := s.inFlightOps ++ [AsyncOp.write t.mMessage]
             , issuedLog := s.issuedLog ++ [t.mMessage] } := by
  unfold messageSender
  rw [h]

/-- The write pump never changes the number of queued records. -/
lemma messageSender_queue_length (s : TCPPeer) :
    (messageSender s).mWriteQueue.length = s.mWriteQueue.length := by
  cases h : s.mWriteQueue with
  | nil => rw [messageSender_nil s h, h]
  | cons t rest => rw [messageSender_cons s t rest h]; simp [h]

/-- The write pump never changes the sequence of queued messages: it only
restamps the issue time of the front record. -/
lemma messageSender_queueMsgs (s : TCPPeer) :
    queueMsgs (messageSender s) = queueMsgs s := by
  cases h : s.mWriteQueue with
  | nil => rw [messageSender_nil s h, queueMsgs, queueMsgs, h]
  | cons t rest => rw [messageSender_cons s t rest h]; simp [queueMsgs, h]

@[simp] lemma writeHandler_mWriteQueue (s : TCPPeer) (err : Bool) (b : Nat) :
    (writeHandler err b s).mWriteQueue = s.mWriteQueue :=
  (writeHandler_frame s err b).1

@[simp] lemma writeHandler_inFlightOps (s : TCPPeer) (err : Bool) (b : Nat) :
    (writeHandler err b s).inFlightOps = s.inFlightOps :=
  (writeHandler_frame s err b).2.1

@[simp] lemma writeHandler_issuedLog (s : TCPPeer) (err : Bool) (b : Nat) :
    (writeHandler err b s).issuedLog = s.issuedLog :=
  (writeHandler_frame s err b).2.2.1

@[simp] lemma writeHandler_enqueuedLog (s : TCPPeer) (err : Bool) (b : Nat) :
    (writeHandler err b s).enqueuedLog = s.enqueuedLog :=
  (writeHandler_frame s err b).2.2.2.1

@[simp] lemma writeHandler_mWriting (s : TCPPeer) (err : Bool) (b : Nat) :
    (writeHandler err b s).mWriting = s.mWriting :=
  (writeHandler_frame s err b).2.2.2.2.1

@[simp] lemma writeHandler_mDelayedShutdown (s : TCPPeer) (err : Bool) (b : Nat) :
    (writeHandler err b s).mDelayedShutdown = s.mDelayedShutdown :=
  (writeHandler_frame s err b).2.2.2.2.2

@[simp] lemma writeHandler_queueMsgs (s : TCPPeer) (err : Bool) (b : Nat) :
    queueMsgs (writeHandler err b s) = queueMsgs s := by
  simp [queueMsgs]

@[simp] lemma messageSender_mWriting (s : TCPPeer) :
    (messageSender s).mWriting = s.mWriting := by
  cases h : s.mWriteQueue with
  | nil => rw [messageSender_nil s h]
  | cons t rest => rw [messageSender_cons s t rest h]

@[simp] lemma messageSender_mState (s : TCPPeer) :
    (messageSender s).mState = s.mState := by
  cases h : s.mWriteQueue with
  | nil => rw [messageSender_nil s h]
  | cons t rest => rw [messageSender_cons s t rest h]

@[simp] lemma messageSender_mDelayedShutdown (s : TCPPeer) :
    (messageSender s).mDelayedShutdown = s.mDelayedShutdown := by
  cases h : s.mWriteQueue with
  | nil => rw [messageSender_nil s h]
  | cons t rest => rw [messageSender_cons s t rest h]

@[simp] lemma messageSender_enqueuedLog (s : TCPPeer) :
    (messageSender s).enqueuedLog = s.enqueuedLog := by
  cases h : s.mWriteQueue with
  | nil => rw [messageSender_nil s h]
  | cons t rest => rw [messageSender_cons s t rest h]

/-- Equation for sendMessage on a closing peer. -/
lemma sendMessage_closing_eq (m : Nat) (s : TCPPeer)
    (h : s.mState = PeerState.CLOSING) : sendMessage m s = s := by
  simp [sendMessage, h]

/-- Equation for sendMessage on a live peer with an armed write chain: the
record is enqueued and nothing else happens. -/
lemma sendMessage_enq_writing (m : Nat) (s : TCPPeer)
    (hcl : ¬ s.mState = PeerState.CLOSING) (hw : s.mWriting = true) :
    sendMessage m s =
      { s with mWriteQueue := s.mWriteQueue ++ [⟨s.clockNow, 0, 0, m⟩]
             , enqueuedLog := s.enqueuedLog ++ [m] } := by
  simp [sendMessage, hcl, hw]

/-- Equation for sendMessage on a live peer with no write chain armed: the
record is enqueued, mWriting is set and the pump is entered. -/
lemma sendMessage_enq_idle (m : Nat) (s : TCPPeer)
    (hcl : ¬ s.mState = PeerState.CLOSING) (hw : s.mWriting = false) :
    sendMessage m s =
      messageSender
        { s with mWriteQueue := s.mWriteQueue ++ [⟨s.clockNow, 0, 0, m⟩]
               , enqueuedLog := s.enqueuedLog ++ [m]
               , mWriting := true } := by
  simp [sendMessage, hcl, hw]

/-- The correspondence between the in-flight operations, the queue and the
two logs that the write pipeline maintains.  With a write of message m in
flight, m is the front of the queue and is already logged as issued, so the
issued log followed by the rest of the queue is the accepted history; in
every other situation the issued log followed by the whole queue is the
accepted history. -/
def chainTrace (ops : List AsyncOp) (queue issued enq : List Nat) : Prop :=
  match ops with
  | [AsyncOp.write m] => ∃ rest, queue = m :: rest ∧ issued ++ rest = enq
  | _ => issued ++ queue = enq

/-- Inductive invariant of the write pipeline: at most one operation in
flight; a disarmed mWriting flag means nothing in flight; the events of the
pipeline never set mDelayedShutdown; an armed mWriting flag with nothing in
flight only occurs after an error has closed the peer; and the trace
correspondence holds. -/
def WInv (s : TCPPeer) : Prop :=
  s.inFlightOps.length ≤ 1 ∧
  (s.mWriting = false → s.inFlightOps = []) ∧
  s.mDelayedShutdown = false ∧
  (s.mWriting = true → s.inFlightOps = [] → s.mState = PeerState.CLOSING) ∧
  chainTrace s.inFlightOps (queueMsgs s) s.issuedLog s.enqueuedLog

/-- The invariant holds of the freshly connected peer. -/
lemma WInv_init : WInv initPeer :=
  ⟨by decide, fun _ => rfl, rfl, fun hw _ => absurd hw (by decide), rfl⟩

/-- Whatever the in-flight operations are, the trace correspondence makes
the issued log a prefix of the accepted history. -/
lemma chainTrace_extends (ops : List AsyncOp) (queue issued enq : List Nat)
    (h : chainTrace ops queue issued enq) : ∃ t, issued ++ t = enq := by
  match ops, h with
  | [AsyncOp.write m], ⟨rest, hq, he⟩ => exact ⟨rest, he⟩
  | [], h => exact ⟨queue, h⟩
  | [AsyncOp.flush], h => exact ⟨queue, h⟩
  | AsyncOp.flush :: x :: xs, h => exact ⟨queue, h⟩
  | AsyncOp.write m :: x :: xs, h => exact ⟨queue, h⟩

/-- Appending a freshly accepted message to the queue and to the accepted
history preserves the trace correspondence. -/
lemma chainTrace_enq (ops : List AsyncOp) (queue issued enq : List Nat)
    (m : Nat) (h : chainTrace ops queue issued enq) :
    chainTrace ops (queue ++ [m]) issued (enq ++ [m]) := by
  match ops, h with
  | [AsyncOp.write m0], ⟨rest, hq, he⟩ =>
      exact ⟨rest ++ [m], by rw [hq]; rfl,
        by rw [← List.append_assoc, he]⟩
  | [], h =>
      show issued ++ (queue ++ [m]) = enq ++ [m]
      have h2 : issued ++ queue = enq := h
      rw [← List.append_assoc, h2]
  | [AsyncOp.flush], h =>
      show issued ++ (queue ++ [m]) = enq ++ [m]
      have h2 : issued ++ queue = enq := h
      rw [← List.append_assoc, h2]
  | AsyncOp.flush :: x :: xs, h =>
      show issued ++ (queue ++ [m]) = enq ++ [m]
      have h2 : issued ++ queue = enq := h
      rw [← List.append_assoc, h2]
  | AsyncOp.write m0 :: x :: xs, h =>
      show issued ++ (queue ++ [m]) = enq ++ [m]
      have h2 : issued ++ queue = enq := h
      rw [← List.append_assoc, h2]

/-- With a write of m in flight, the trace correspondence pins m as the
front message of the queue. -/
lemma chainTrace_head (m : Nat) (queue issued enq : List Nat)
    (h : chainTrace [AsyncOp.write m] queue issued enq) :
    queue.head? = some m := by
  obtain ⟨rest, hq, -⟩ := h
  rw [hq]
  rfl

/-- Equation for the flush continuation when the flush errored. -/
lemma flushCompletion_err_eq (s : TCPPeer) :
    flushCompletion true s = writeHandler true 0 s := by
  simp [flushCompletion]

/-- Equation for the flush continuation on success with a nonempty queue:
re-enter the pump. -/
lemma flushCompletion_ok_nonempty (s : TCPPeer) (hq : s.mWriteQueue ≠ []) :
    flushCompletion false s = messageSender (writeHandler false 0 s) := by
  simp [flushCompletion, hq]

/-- Equation for the flush continuation on success with an empty queue and
no delayed shutdown pending: disarm mWriting. -/
lemma flushCompletion_ok_empty (s : TCPPeer) (hq : s.mWriteQueue = [])
    (hd : s.mDelayedShutdown = false) :
    flushCompletion false s = { writeHandler false 0 s with mWriting := false } := by
  simp [flushCompletion, hq, hd]

/-- Equation for the write continuation when the write errored: run the
handler, pop the front record, stop the chain. -/
lemma writeCompletion_err_eq (b : Nat) (s : TCPPeer) (t : TimestampedMessage)
    (rest : List TimestampedMessage) (hq : s.mWriteQueue = t :: rest) :
    writeCompletion true b s =
      { writeHandler true b s with
          mWriteQueue := rest
        , timerUpdates := (writeHandler true b s).timerUpdates + 2 } := by
  simp [writeCompletion, hq]

/-- Equation for the write continuation on success: run the handler, pop
the front record, re-enter the pump. -/
lemma writeCompletion_ok_eq (b : Nat) (s : TCPPeer) (t : TimestampedMessage)
    (rest : List TimestampedMessage) (hq : s.mWriteQueue = t :: rest) :
    writeCompletion false b s =
      messageSender
        { writeHandler false b s with
            mWriteQueue := rest
          , timerUpdates := (writeHandler false b s).timerUpdates + 2 } := by
  simp [writeCompletion, hq]

/-- Entering the pump from a state with nothing in flight, no delayed
shutdown, an armed mWriting flag and a coherent trace reestablishes the
pipeline invariant. -/
lemma WInv_pump (s : TCPPeer) (hif : s.inFlightOps = [])
    (hd : s.mDelayedShutdown = false) (hw : s.mWriting = true)
    (htr : s.issuedLog ++ queueMsgs s = s.enqueuedLog) :
    WInv (messageSender s) := by
  cases hq : s.mWriteQueue with
  | nil =>
      rw [messageSender_nil s hq, hif]
      refine ⟨by simp, ?_, hd, ?_, ?_⟩
      · intro hfalse
        simp [hw] at hfalse
      · intro _ hE
        simp at hE
      · show _ ++ _ = _
        simpa [queueMsgs, hq] using htr
  | cons t rest =>
      rw [messageSender_cons s t rest hq, hif]
      refine ⟨by simp, ?_, hd, ?_, ?_⟩
      · intro hfalse
        simp [hw] at hfalse
      · intro _ hE
        simp at hE
      · refine ⟨rest.map TimestampedMessage.mMessage, by simp [queueMsgs], ?_⟩
        show (s.issuedLog ++ [t.mMessage]) ++ rest.map TimestampedMessage.mMessage
          = s.enqueuedLog
        rw [List.append_assoc]
        simpa [queueMsgs, hq] using htr

/-- The state in which the reactor has just consumed the single in-flight
operation, before its continuation body runs. -/
def clearInFlight (s : TCPPeer) : TCPPeer :=
  { s with inFlightOps := [] }

@[simp] lemma clearInFlight_inFlightOps (s : TCPPeer) :
    (clearInFlight s).inFlightOps = [] := rfl

@[simp] lemma clearInFlight_mWriteQueue (s : TCPPeer) :
    (clearInFlight s).mWriteQueue = s.mWriteQueue := rfl

@[simp] lemma clearInFlight_mWriting (s : TCPPeer) :
    (clearInFlight s).mWriting = s.mWriting := rfl

@[simp] lemma clearInFlight_mDelayedShutdown (s : TCPPeer) :
    (clearInFlight s).mDelayedShutdown = s.mDelayedShutdown := rfl

@[simp] lemma clearInFlight_mState (s : TCPPeer) :
    (clearInFlight s).mState = s.mState := rfl

@[simp] lemma clearInFlight_issuedLog (s : TCPPeer) :
    (clearInFlight s).issuedLog = s.issuedLog := rfl

@[simp] lemma clearInFlight_enqueuedLog (s : TCPPeer) :
    (clearInFlight s).enqueuedLog = s.enqueuedLog := rfl

@[simp] lemma clearInFlight_queueMsgs (s : TCPPeer) :
    queueMsgs (clearInFlight s) = queueMsgs s := rfl

/-- A state whose chain has stopped, with an armed flag only possible on a
closed peer, satisfies the pipeline invariant. -/
lemma WInv_stop (x : TCPPeer) (hif : x.inFlightOps = [])
    (hcl : x.mWriting = true → x.mState = PeerState.CLOSING)
    (hd : x.mDelayedShutdown = false)
    (htr : x.issuedLog ++ queueMsgs x = x.enqueuedLog) : WInv x := by
  refine ⟨by simp [hif], fun _ => hif, hd, fun hw _ => hcl hw, ?_⟩
  rw [hif]
  exact htr

/-- A state whose chain is disarmed with nothing in flight satisfies the
pipeline invariant. -/
lemma WInv_disarmed (x : TCPPeer) (hif : x.inFlightOps = [])
    (hw : x.mWriting = false) (hd : x.mDelayedShutdown = false)
    (htr : x.issuedLog ++ queueMsgs x = x.enqueuedLog) : WInv x := by
  refine ⟨by simp [hif], fun _ => hif, hd, ?_, ?_⟩
  · intro hwt _
    rw [hw] at hwt
    cases hwt
  · rw [hif]
    exact htr

/-- Step equation: a send event runs sendMessage. -/
lemma stepW_send (s : TCPPeer) (m : Nat) :
    stepW s (WriteEvent.send m) = sendMessage m s := rfl

/-- Step equation: a completion with nothing in flight changes nothing. -/
lemma stepW_complete_nil (s : TCPPeer) (err : Bool) (b : Nat)
    (h : s.inFlightOps = []) : stepW s (WriteEvent.complete err b) = s := by
  simp [stepW, h]

/-- Step equation: completing an in-flight flush consumes it and runs the
flush continuation. -/
lemma stepW_complete_flush (s : TCPPeer) (err : Bool) (b : Nat)
    (h : s.inFlightOps = [AsyncOp.flush]) :
    stepW s (WriteEvent.complete err b) =
      flushCompletion err (clearInFlight s) := by
  simp [stepW, h, clearInFlight]

/-- Step equation: completing an in-flight write consumes it and runs the
write continuation. -/
lemma stepW_complete_write (s : TCPPeer) (err : Bool) (b : Nat) (m0 : Nat)
    (h : s.inFlightOps = [AsyncOp.write m0]) :
    stepW s (WriteEvent.complete err b) =
      writeCompletion err b (clearInFlight s) := by
  simp [stepW, h, clearInFlight]

/-- The pipeline invariant is preserved by every event. -/
lemma stepW_WInv (s : TCPPeer) (e : WriteEvent) (hInv : WInv s) :
    WInv (stepW s e) := by
  obtain ⟨h1, h2, h3, h4, h5⟩ := hInv
  cases e with
  | send m =>
      rw [stepW_send]
      by_cases hcl : s.mState = PeerState.CLOSING
      · rw [sendMessage_closing_eq m s hcl]
        exact ⟨h1, h2, h3, h4, h5⟩
      · by_cases hw : s.mWriting = false
        · have hif : s.inFlightOps = [] := h2 hw
          have hkey : s.issuedLog ++ queueMsgs s = s.enqueuedLog := by
            rw [hif] at h5
            exact h5
          rw [sendMessage_enq_idle m s hcl hw]
          apply WInv_pump
          · exact hif
          · exact h3
          · rfl
          · have hgrow := congrArg (fun l => l ++ [m]) hkey
            simpa [queueMsgs, List.append_assoc] using hgrow
        · have hwT : s.mWriting = true := by
            cases hb : s.mWriting
            · exact absurd hb hw
            · rfl
          rw [sendMessage_enq_writing m s hcl hwT]
          refine ⟨by simpa using h1, ?_, h3, ?_, ?_⟩
          · intro hfalse
            simp [hwT] at hfalse
          · intro _ hE
            exact absurd (h4 hwT (by simpa using hE)) hcl
          · have hstep := chainTrace_enq s.inFlightOps (queueMsgs s)
              s.issuedLog s.enqueuedLog m h5
            simpa [queueMsgs] using hstep
  | complete err b =>
      cases hIF : s.inFlightOps with
      | nil =>
          rw [stepW_complete_nil s err b hIF]
          exact ⟨h1, h2, h3, h4, h5⟩
      | cons op rest0 =>
          have hrest : rest0 = [] := by
            rw [hIF] at h1
            simp only [List.length_cons] at h1
            exact List.length_eq_zero.mp (by omega)
          subst hrest
          have hwT : s.mWriting = true := by
            cases hb : s.mWriting
            · have hnil := h2 hb
              rw [hIF] at hnil
              exact (List.cons_ne_nil _ _ hnil).elim
            · rfl
          cases op with
          | flush =>
              have htr : s.issuedLog ++ queueMsgs s = s.enqueuedLog := by
                rw [hIF] at h5
                exact h5
              rw [stepW_complete_flush s err b hIF]
              cases err with
              | true =>
                  rw [flushCompletion_err_eq]
                  apply WInv_stop
                  · simp
                  · intro _
                    exact writeHandler_err_mState _ 0 (by simp [h3])
                  · simp [h3]
                  · simpa [queueMsgs] using htr
              | false =>
                  by_cases hq : s.mWriteQueue = []
                  · rw [flushCompletion_ok_empty (clearInFlight s)
                      (by simp [hq]) (by simp [h3])]
                    apply WInv_disarmed
                    · simp
                    · rfl
                    · simp [h3]
                    · simpa [queueMsgs] using htr
                  · rw [flushCompletion_ok_nonempty (clearInFlight s)
                      (by simp [hq])]
                    apply WInv_pump
                    · simp
                    · simp [h3]
                    · simp [hwT]
                    · simpa [queueMsgs] using htr
          | write m0 =>
              have h5w : ∃ rest, queueMsgs s = m0 :: rest ∧
                  s.issuedLog ++ rest = s.enqueuedLog := by
                rw [hIF] at h5
                exact h5
              obtain ⟨rest, hqm, he⟩ := h5w
              obtain ⟨t0, q0, hq0, hm0, hmap⟩ : ∃ t0 q0,
                  s.mWriteQueue = t0 :: q0 ∧ t0.mMessage = m0 ∧
                  q0.map TimestampedMessage.mMessage = rest := by
                cases hq : s.mWriteQueue with
                | nil => simp [queueMsgs, hq] at hqm
                | cons t0 q0 =>
                    have hcc : t0.mMessage :: q0.map TimestampedMessage.mMessage
                        = m0 :: rest := by
                      simpa [queueMsgs, hq] using hqm
                    injection hcc with ha hb2
                    exact ⟨t0, q0, rfl, ha, hb2⟩
              rw [stepW_complete_write s err b m0 hIF]
              cases err with
              | true =>
                  rw [writeCompletion_err_eq b (clearInFlight s) t0 q0
                    (by simp [hq0])]
                  apply WInv_stop
                  · simp
                  · intro _
                    exact writeHandler_err_mState _ b (by simp [h3])
                  · simp [h3]
                  · simpa [queueMsgs, hmap] using he
              | false =>
                  rw [writeCompletion_ok_eq b (clearInFlight s) t0 q0
                    (by simp [hq0])]
                  apply WInv_pump
                  · simp
                  · simp [h3]
                  · simp [hwT]
                  · simpa [queueMsgs, hmap] using he

/-- With at most one operation in flight, anything beyond the head of the
in-flight list is empty. -/
lemma inFlight_singleton (s : TCPPeer) (h1 : s.inFlightOps.length ≤ 1)
    (op : AsyncOp) (rest0 : List AsyncOp) (hIF : s.inFlightOps = op :: rest0) :
    rest0 = [] := by
  rw [hIF] at h1
  simp only [List.length_cons] at h1
  exact List.length_eq_zero.mp (by omega)

/-- A cons-shaped message view of the queue comes from a cons-shaped
queue. -/
lemma queueMsgs_cons (s : TCPPeer) (m0 : Nat) (rest : List Nat)
    (hqm : queueMsgs s = m0 :: rest) :
    ∃ t0 q0, s.mWriteQueue = t0 :: q0 ∧ t0.mMessage = m0 ∧
      q0.map TimestampedMessage.mMessage = rest := by
  cases hq : s.mWriteQueue with
  | nil => simp [queueMsgs, hq] at hqm
  | cons t0 q0 =>
      have hcc : t0.mMessage :: q0.map TimestampedMessage.mMessage
          = m0 :: rest := by
        simpa [queueMsgs, hq] using hqm
      injection hcc with ha hb2
      exact ⟨t0, q0, rfl, ha, hb2⟩

/-- The pump always leaves exactly one new operation in flight. -/
lemma messageSender_inFlightOps_ne_nil (x : TCPPeer) :
    (messageSender x).inFlightOps ≠ [] := by
  cases h : x.mWriteQueue with
  | nil => rw [messageSender_nil x h]; simp
  | cons t r => rw [messageSender_cons x t r h]; simp

/-- In error-free executions each event preserves the equivalence between
an armed mWriting flag and an operation being in flight. -/
lemma stepW_ok_iff (s : TCPPeer) (e : WriteEvent) (hInv : WInv s)
    (hiff : s.mWriting = true ↔ s.inFlightOps ≠ [])
    (hok : eventOk e = true) :
    (stepW s e).mWriting = true ↔ (stepW s e).inFlightOps ≠ [] := by
  obtain ⟨h1, h2, h3, h4, h5⟩ := hInv
  cases e with
  | send m =>
      rw [stepW_send]
      by_cases hcl : s.mState = PeerState.CLOSING
      · rw [sendMessage_closing_eq m s hcl]
        exact hiff
      · by_cases hw : s.mWriting = false
        · rw [sendMessage_enq_idle m s hcl hw]
          exact iff_of_true (by simp) (messageSender_inFlightOps_ne_nil _)
        · have hwT : s.mWriting = true := by
            cases hb : s.mWriting
            · exact absurd hb hw
            · rfl
          rw [sendMessage_enq_writing m s hcl hwT]
          simpa using hiff
  | complete err b =>
      have herr : err = false := by simpa [eventOk] using hok
      subst herr
      cases hIF : s.inFlightOps with
      | nil =>
          rw [stepW_complete_nil s false b hIF]
          exact hiff
      | cons op rest0 =>
          have hrest : rest0 = [] := inFlight_singleton s h1 op rest0 hIF
          subst hrest
          have hwT : s.mWriting = true :=
            hiff.mpr (by rw [hIF]; exact List.cons_ne_nil op [])
          cases op with
          | flush =>
              rw [stepW_complete_flush s false b hIF]
              by_cases hq : s.mWriteQueue = []
              · rw [flushCompletion_ok_empty (clearInFlight s)
                  (by simp [hq]) (by simp [h3])]
                exact iff_of_false (by simp) (by simp)
              · rw [flushCompletion_ok_nonempty (clearInFlight s)
                  (by simp [hq])]
                exact iff_of_true (by simp [hwT])
                  (messageSender_inFlightOps_ne_nil _)
          | write m0 =>
              have h5w : ∃ rest, queueMsgs s = m0 :: rest ∧
                  s.issuedLog ++ rest = s.enqueuedLog := by
                rw [hIF] at h5
                exact h5
              obtain ⟨rest, hqm, -⟩ := h5w
              obtain ⟨t0, q0, hq0, -, -⟩ := queueMsgs_cons s m0 rest hqm
              rw [stepW_complete_write s false b m0 hIF,
                writeCompletion_ok_eq b (clearInFlight s) t0 q0 (by simp [hq0])]
              exact iff_of_true (by simp [hwT])
                (messageSender_inFlightOps_ne_nil _)

/-- The queue can only shrink at the completion of the write of its own
front record. -/
lemma stepW_shrink (s : TCPPeer) (e : WriteEvent) (hInv : WInv s)
    (hlt : (stepW s e).mWriteQueue.length < s.mWriteQueue.length) :
    ∃ err b m, e = WriteEvent.complete err b ∧
      s.inFlightOps = [AsyncOp.write m] ∧
      (queueMsgs s).head? = some m := by
  obtain ⟨h1, h2, h3, h4, h5⟩ := hInv
  cases e with
  | send m =>
      exfalso
      rw [stepW_send] at hlt
      by_cases hcl : s.mState = PeerState.CLOSING
      · rw [sendMessage_closing_eq m s hcl] at hlt
        omega
      · by_cases hw : s.mWriting = false
        · rw [sendMessage_enq_idle m s hcl hw, messageSender_queue_length]
            at hlt
          simp [List.length_append] at hlt
        · have hwT : s.mWriting = true := by
            cases hb : s.mWriting
            · exact absurd hb hw
            · rfl
          rw [sendMessage_enq_writing m s hcl hwT] at hlt
          simp [List.length_append] at hlt
  | complete err b =>
      cases hIF : s.inFlightOps with
      | nil =>
          rw [stepW_complete_nil s err b hIF] at hlt
          omega
      | cons op rest0 =>
          have hrest : rest0 = [] := inFlight_singleton s h1 op rest0 hIF
          subst hrest
          cases op with
          | flush =>
              exfalso
              rw [stepW_complete_flush s err b hIF] at hlt
              cases err with
              | true =>
                  rw [flushCompletion_err_eq] at hlt
                  simp at hlt
              | false =>
                  by_cases hq : s.mWriteQueue = []
                  · rw [flushCompletion_ok_empty (clearInFlight s)
                      (by simp [hq]) (by simp [h3])] at hlt
                    simp at hlt
                  · rw [flushCompletion_ok_nonempty (clearInFlight s)
                      (by simp [hq]), messageSender_queue_length] at hlt
                    simp at hlt
          | write m0 =>
              refine ⟨err, b, m0, rfl, rfl, ?_⟩
              have h5w : ∃ rest, queueMsgs s = m0 :: rest ∧
                  s.issuedLog ++ rest = s.enqueuedLog := by
                rw [hIF] at h5
                exact h5
              obtain ⟨rest, hqm, -⟩ := h5w
              rw [hqm]
              rfl

/-- The pipeline invariant holds after any run from an invariant state. -/
lemma runW_WInv (es : List WriteEvent) :
    ∀ s : TCPPeer, WInv s → WInv (runW es s) := by
  induction es with
  | nil => intro s h; exact h
  | cons e es ih => intro s h; exact ih _ (stepW_WInv s e h)

/-- The armed-iff-in-flight equivalence holds after any error-free run from
an invariant state satisfying it. -/
lemma runW_ok_iff (es : List WriteEvent) :
    ∀ s : TCPPeer, WInv s → (s.mWriting = true ↔ s.inFlightOps ≠ []) →
      (∀ e ∈ es, eventOk e = true) →
      ((runW es s).mWriting = true ↔ (runW es s).inFlightOps ≠ []) := by
  induction es with
  | nil => intro s _ hiff _; exact hiff
  | cons e es ih =>
      intro s hInv hiff hok
      exact ih _ (stepW_WInv s e hInv)
        (stepW_ok_iff s e hInv hiff (hok e (by simp)))
        (fun e2 he2 => hok e2 (by simp [he2]))

/-- Claim C5 amended: over every sequence of sendMessage calls and write
completions from a fresh peer, at most one asynchronous operation is ever
in flight; while a write of message m is in flight, m is the front of the
write queue; the messages handed to the socket form a prefix of the
accepted enqueue history, so writes go out in strict FIFO order; the front
record is popped only by the completion of the write of that very record;
and, provided every completion in the run is error-free, mWriting is true
exactly when an operation is in flight.  (The error-free proviso is the
amendment: an erroring completion stops the chain without clearing
mWriting, see the counterexample.) -/
theorem write_pipeline_invariants (es : List WriteEvent) :
    (runW es initPeer).inFlightOps.length ≤ 1 ∧
    (∀ m, (runW es initPeer).inFlightOps = [AsyncOp.write m] →
      (queueMsgs (runW es initPeer)).head? = some m) ∧
    (∃ t, (runW es initPeer).issuedLog ++ t = (runW es initPeer).enqueuedLog) ∧
    (∀ e : WriteEvent,
      (stepW (runW es initPeer) e).mWriteQueue.length
          < (runW es initPeer).mWriteQueue.length →
      ∃ err b m, e = WriteEvent.complete err b ∧
        (runW es initPeer).inFlightOps = [AsyncOp.write m] ∧
        (queueMsgs (runW es initPeer)).head? = some m) ∧
    ((∀ e ∈ es, eventOk e = true) →
      ((runW es initPeer).mWriting = true ↔
        (runW es initPeer).inFlightOps ≠ [])) := by
  obtain ⟨h1, h2, h3, h4, h5⟩ := runW_WInv es initPeer WInv_init
  refine ⟨h1, ?_, chainTrace_extends _ _ _ _ h5, ?_, ?_⟩
  · intro m hm
    rw [hm] at h5
    exact chainTrace_head m _ _ _ h5
  · intro e hlt
    exact stepW_shrink _ e (runW_WInv es initPeer WInv_init) hlt
  · intro hok
    exact runW_ok_iff es initPeer WInv_init (by decide) hok

/-- Counterexample to the mWriting conjunct of claim C5 as stated: after a
send followed by an erroring write completion, the chain is stopped with
nothing in flight, yet mWriting is still true, so mWriting true is not
equivalent to a write being in flight. -/
theorem write_pipeline_mWriting_cex :
    (runW [WriteEvent.send 0, WriteEvent.complete true 0] initPeer).mWriting
      = true ∧
    (runW [WriteEvent.send 0, WriteEvent.complete true 0] initPeer).inFlightOps
      = [] ∧
    ¬ ((runW [WriteEvent.send 0,
          WriteEvent.complete true 0] initPeer).mWriting = true ↔
        (runW [WriteEvent.send 0,
          WriteEvent.complete true 0] initPeer).inFlightOps ≠ []) := by
  refine ⟨rfl, rfl, ?_⟩
  decide

/-- Witness for the amended claim C5 on the concrete error-free run that
sends messages 1 and 2 and completes the first write: the write of message
2 is in flight and heads the queue, the queue can only shrink through a
write completion, and mWriting agrees with an operation being in flight. -/
theorem write_pipeline_invariants_witness :
    (queueMsgs (runW [WriteEvent.send 1, WriteEvent.send 2,
        WriteEvent.complete false 3] initPeer)).head? = some 2 ∧
    (∃ err b m, WriteEvent.complete false 7
          = WriteEvent.complete err b ∧
        (runW [WriteEvent.send 1, WriteEvent.send 2,
          WriteEvent.complete false 3] initPeer).inFlightOps
          = [AsyncOp.write m] ∧
        (queueMsgs (runW [WriteEvent.send 1, WriteEvent.send 2,
          WriteEvent.complete false 3] initPeer)).head? = some m) ∧
    ((runW [WriteEvent.send 1, WriteEvent.send 2,
        WriteEvent.complete false 3] initPeer).mWriting = true ↔
      (runW [WriteEvent.send 1, WriteEvent.send 2,
        WriteEvent.complete false 3] initPeer).inFlightOps ≠ []) :=
  ⟨(write_pipeline_invariants [WriteEvent.send 1, WriteEvent.send 2,
      WriteEvent.complete false 3]).2.1 2 rfl,
   (write_pipeline_invariants [WriteEvent.send 1, WriteEvent.send 2,
      WriteEvent.complete false 3]).2.2.2.1 (WriteEvent.complete false 7)
      (by decide),
   (write_pipeline_invariants [WriteEvent.send 1, WriteEvent.send 2,
      WriteEvent.complete false 3]).2.2.2.2 (by decide)⟩

end WritePipeline

end TCPPeer

end StellarOverlay
